import Mathlib

/-!
Shallow embedding of the Volkslauf registration & results engine
(`main.py`): the duration codec (`DurationProperty`), the age
classifier (`Runner._compute_age_class`), the runner/event data model,
the transactional handlers (`RunnerCreateHandler._create_runner`,
`RunnerUpdateHandler._update_runner`, `EventUpdateHandler.post`,
`RunnerDeleteHandler.post`) and the finished-list report query
(`EventReportHandler._get_finished_list`).

Python integers are modelled as `Int`; Python `//` is `Int.fdiv` and
`%` is `Int.emod` (floor division / nonnegative remainder for the
positive divisors used here).  Fallible Python code (exceptions) is
modelled with `Option`/`Except`.
-/

namespace Volkslauf

/-! ### DurationProperty -/

/-- Python `'{:02}'.format(n)`: zero-pad to width 2 (wider numbers and
negative numbers print as `toString n`). -/
def pad2 (n : Int) : String :=
  if 0 ≤ n ∧ n < 10 then "0" ++ toString n else toString n

/-- Embedding of `DurationProperty._display_seconds` (main.py lines 48-65): `None`
maps to `None`; otherwise split into hours/minutes/seconds by repeated
`// 60` and `% 60`; Python `if hours:` is an `hours ≠ 0` test, the
zero-hours branch prints a literal `'00:'` block. -/
def displaySeconds : Option Int → Option String
  | none => none
  | some seconds =>
    let secs := seconds.emod 60
    let tmp := seconds.fdiv 60
    let mins := tmp.emod 60
    let hours := tmp.fdiv 60
    if hours = 0 then
      some ("00:" ++ pad2 mins ++ ":" ++ pad2 secs)
    else
      some (pad2 hours ++ ":" ++ pad2 mins ++ ":" ++ pad2 secs)

/-- Worker for `pySplitMax`: `cur` accumulates the current part in
reverse; once the split budget is exhausted the remainder (separators
included) becomes the last part. -/
def pySplitMaxAux (sep : Char) : Nat → List Char → List Char →
    List (List Char)
  | _, [], cur => [cur.reverse]
  | 0, cs, cur => [cur.reverse ++ cs]
  | n + 1, c :: rest, cur =>
    if c = sep then cur.reverse :: pySplitMaxAux sep n rest []
    else pySplitMaxAux sep (n + 1) rest (c :: cur)

/-- Python `s.split(sep, maxsplit)`: at most `maxsplit` splits, the
remainder (separators included) becomes the last part. -/
def pySplitMax (sep : Char) (maxsplit : Nat) (s : String) : List String :=
  (pySplitMaxAux sep maxsplit s.data []).map String.mk

/-- Value of a nonempty all-digit character list, `none` otherwise. -/
def digitsVal (cs : List Char) : Option Nat :=
  if cs = [] then none
  else if cs.all Char.isDigit then
    some (cs.foldl (fun acc c => 10 * acc + (c.toNat - ('0').toNat)) 0)
  else none

/-- Python 2 `int(str)`: strip surrounding whitespace, allow one sign,
then require a nonempty digit run; anything else raises `ValueError`
(modelled as `none`). -/
def pyInt (s : String) : Option Int :=
  let cs := ((s.data.dropWhile Char.isWhitespace).reverse.dropWhile
      Char.isWhitespace).reverse
  match cs with
  | '-' :: rest => (digitsVal rest).map (fun n => -(n : Int))
  | '+' :: rest => (digitsVal rest).map (fun n => (n : Int))
  | rest => (digitsVal rest).map (fun n => (n : Int))

/-- Embedding of `DurationProperty._get_seconds_from_time` (main.py lines 67-78):
empty input returns `None`; otherwise `split(':', 3)` and map `int`
over the parts (a `ValueError` aborts, modelled as `.error ()`).  The
three-part branch is embedded exactly as written in the source:
`arr[0] * 60 * 60 + arr[1] * 60 + arr[0]` — the last summand reads
`arr[0]`, not `arr[2]`. -/
def getSecondsFromTime (timeStr : String) : Except Unit (Option Int) :=
  if timeStr = "" then .ok none
  else
    match (pySplitMax ':' 3 timeStr).mapM pyInt with
    | none => .error ()
    | some arr =>
      match arr with
      | [a0, a1, _a2] => .ok (some (a0 * 60 * 60 + a1 * 60 + a0))
      | [a0, a1] => .ok (some (a0 * 60 + a1))
      | a0 :: _ => .ok (some a0)
      | [] => .error ()

/-- Longest digit run at the head of a character list, with the rest. -/
def takeDigits : List Char → List Char × List Char
  | [] => ([], [])
  | c :: rest =>
    if c.isDigit then
      let (d, r) := takeDigits rest
      (c :: d, r)
    else ([], c :: rest)

/-- Embedding of `re.match(REGEX_TIME, s)` for `REGEX_TIME = r'^(\d+:)?\d+:\d+'`
(main.py line 27).  The pattern is anchored only at the start, so a
match exists iff the string begins with a digit run, a colon, and at
least one more digit: when the optional group participates the string
starts with `\d+:\d+:\d+`, whose prefix already has that shape, and
`\d+` cannot stop early because the next character must then be `:`. -/
def regexTimeMatch (s : String) : Bool :=
  match takeDigits s.data with
  | ([], _) => false
  | (_ :: _, r) =>
    match r with
    | [] => false
    | c :: rest => decide (c = ':') && !(takeDigits rest).1.isEmpty

/-- Embedding of `DurationProperty._validate` (main.py lines 37-39): raises unless
`re.match(REGEX_TIME, value)` succeeds; `true` means the value is
accepted. -/
def durationValid (value : String) : Bool :=
  regexTimeMatch value

/-! ### AgeClassifier (`Runner._compute_age_class`) -/

/-- Sub-band suffix of the `age < 16` branch (main.py lines 257-266);
the trailing `else` arm mirrors the source's `if/elif` chain adding
nothing when no arm matches (unreachable for `age < 16`). -/
def youngSuffix (age : Int) : String :=
  if age ≤ 9 then "D"
  else if age ≤ 11 then "C"
  else if age ≤ 13 then "B"
  else if age ≤ 15 then "A"
  else ""

/-- Sub-band suffix of the `16 ≤ age < 20` branch (main.py lines
267-272). -/
def juniorSuffix (age : Int) : String :=
  if age ≤ 17 then "B" else "A"

/-- Sub-band suffix of the `age ≥ 20` branch (main.py lines 273-295). -/
def seniorSuffix (age : Int) : String :=
  if age ≤ 29 then "20"
  else if age ≤ 34 then "30"
  else if age ≤ 39 then "35"
  else if age ≤ 44 then "40"
  else if age ≤ 49 then "45"
  else if age ≤ 54 then "50"
  else if age ≤ 59 then "55"
  else if age ≤ 64 then "60"
  else if age ≤ 69 then "65"
  else "70"

/-- Embedding of `Runner._compute_age_class` (main.py lines 249-296).  Python
`if not self.birth_year` is true for `None` and for `0`; the event's
`year` is passed in directly (the source fetches it from the owning
event entity). -/
def computeAgeClass (gender : String) (birthYear : Option Int)
    (eventYear : Int) : Option String :=
  if birthYear = none ∨ birthYear = some 0 then none
  else if gender ≠ "male" ∧ gender ≠ "female" then none
  else
    let age := eventYear - birthYear.getD 0
    let g := if gender = "male" then "M" else "W"
    if age < 16 then some (g ++ "S " ++ youngSuffix age)
    else if age < 20 then some (g ++ "JG " ++ juniorSuffix age)
    else some ("L" ++ g ++ seniorSuffix age)

/-- Embedding of `Runner._pre_put_hook` (main.py lines 244-247): the freshly
computed class overwrites the stored one only when it is truthy
(non-`None` and nonempty); otherwise the stored value is kept. -/
def prePutAgeClass (old computed : Option String) : Option String :=
  match computed with
  | none => old
  | some s => if s = "" then old else some s

/-! ### Data model -/

/-- The `Event` entity fields the core operations read and write
(main.py lines 144-150; `date` is never consulted by them). -/
structure EventRec where
  year : Int
  title : String
  nextStartNo : Int
  deriving DecidableEq, Repr

/-- The `Runner` entity (main.py lines 221-234).  `key` is the ndb
entity key id, `parent` the ancestor (owning event) key id, `event`
the value of the `event` KeyProperty; `time` holds the stored base
value of the `DurationProperty`. -/
structure RunnerRec where
  key : Nat
  parent : Nat
  event : Nat
  startNo : Int
  name : String
  team : String
  gender : String
  birthYear : Option Int
  ageClass : Option String
  time : Option String
  race : String
  deriving DecidableEq, Repr

/-- The datastore contents relevant to the handlers: events keyed by
id, and the runner entities in insertion order (queries return the
first match in this order). -/
structure Store where
  events : List (Nat × EventRec)
  runners : List RunnerRec
  deriving DecidableEq, Repr

/-- Embedding of `ndb.Key(...).get()` for an event key. -/
def lookupEvent : List (Nat × EventRec) → Nat → Option EventRec
  | [], _ => none
  | (k', e) :: rest, k => if k' = k then some e else lookupEvent rest k

/-- Embedding of `event.put()`: replace the stored entity under its key. -/
def updateEventIn : List (Nat × EventRec) → Nat → EventRec →
    List (Nat × EventRec)
  | [], _, _ => []
  | (k0, e0) :: rest, k, e =>
    (if k0 = k then (k, e) else (k0, e0)) :: updateEventIn rest k e

/-- Embedding of `ndb.Key(...).get()` for a runner key. -/
def findRunner : List RunnerRec → Nat → Option RunnerRec
  | [], _ => none
  | r :: rest, k => if r.key = k then some r else findRunner rest k

/-! ### Form validation -/

/-- Typed input of `RunnerForm` (main.py lines 205-218): the fields the
schema passes through after per-field conversion. -/
structure RunnerFormInput where
  startNo : Int
  name : String
  team : String
  gender : String
  birthYear : Int
  race : String
  deriving DecidableEq, Repr

/-- The per-field validators of `RunnerForm`: `Int(not_empty, min=1)`,
`UnicodeString(not_empty, max_len=200)`, `UnicodeString(max_len=200)`,
`Regex('^(male|female)$', not_empty)`, `Int(not_empty, min=1900)`,
`Regex('^(6km|12km)$', not_empty)`. -/
def runnerFormFieldsValid (p : RunnerFormInput) : Bool :=
  decide (1 ≤ p.startNo) &&
  !(p.name == "") && decide (p.name.length ≤ 200) &&
  decide (p.team.length ≤ 200) &&
  (p.gender == "male" || p.gender == "female") &&
  decide (1900 ≤ p.birthYear) &&
  (p.race == "6km" || p.race == "12km")

/-- The query inside `UniqueStartNoValidator.validate_python` (main.py
lines 196-198): `Runner.query(Runner.start_no == value,
ancestor=state.event_key).get()` — first stored runner of the event
with that start number. -/
def uniqueStartNoQuery (runners : List RunnerRec) (ek : Nat) (v : Int) :
    Option RunnerRec :=
  runners.find? (fun r => decide (r.parent = ek) && decide (r.startNo = v))

/-- Embedding of `UniqueStartNoValidator.validate_python` (main.py lines 196-202):
fails (returns `false`) iff the query finds a runner whose key differs
from `state.runner_key` (`none` for Create). -/
def uniqueStartNoValidate (runners : List RunnerRec) (ek : Nat)
    (rk : Option Nat) (v : Int) : Bool :=
  match uniqueStartNoQuery runners ek v with
  | none => true
  | some r => decide (some r.key = rk)

/-- The per-field validators of `EventForm` (main.py lines 134-141):
`UnicodeString(not_empty)`, `Int(not_empty, min=1990, max=2500)`,
`Int(not_empty, min=1)`. -/
def eventFormValid (title : String) (year nsn : Int) : Bool :=
  !(title == "") && decide (1990 ≤ year) && decide (year ≤ 2500) &&
  decide (1 ≤ nsn)

/-! ### RegistrationEngine -/

/-- Embedding of `RunnerCreateHandler._create_runner` (main.py lines 699-722),
run under `@ndb.transactional`: validate the form (field validators,
then the unique-start-no pipe), fetch the event, bump
`next_start_no` when it equals the requested start number, then put
the new runner (whose `_pre_put_hook` fills `age_class`).  An
exception (`formencode.Invalid`, or `event_key.get()` returning
`None` and the attribute access crashing) rolls the transaction back,
modelled by returning `.error ()` and no new store. -/
def createRunner (store : Store) (ek : Nat) (p : RunnerFormInput)
    (newKey : Nat) : Except Unit Store :=
  if runnerFormFieldsValid p = false then .error ()
  else if uniqueStartNoValidate store.runners ek none p.startNo = false then
    .error ()
  else
    match lookupEvent store.events ek with
    | none => .error ()
    | some ev =>
      let ev' := if ev.nextStartNo = p.startNo then
                   { ev with nextStartNo := ev.nextStartNo + 1 }
                 else ev
      let r : RunnerRec :=
        { key := newKey, parent := ek, event := ek,
          startNo := p.startNo, name := p.name, team := p.team,
          gender := p.gender, birthYear := some p.birthYear,
          ageClass := prePutAgeClass none
            (computeAgeClass p.gender (some p.birthYear) ev.year),
          time := none, race := p.race }
      .ok { events := updateEventIn store.events ek ev',
            runners := store.runners ++ [r] }

/-- The two failure classes of `_update_runner`: a `formencode.Invalid`
raised by validation, and any other Python exception. -/
inductive PyFailure where
  | invalid
  | exn
  deriving DecidableEq, Repr

/-- Embedding of `RunnerUpdateHandler._update_runner` (main.py lines 749-762):
fetch the runner, validate the form (uniqueness excludes the runner's
own key), populate, then test `if not self.request.params('time')`.
`request.params` is webob's MultiDict — not callable — so this line
raises `TypeError` on every request that survives validation, before
`runner.put()` is reached; when the runner key does not resolve,
`runner.populate` on `None` raises `AttributeError` instead.  Either
way the transaction rolls back and no store is ever produced. -/
def updateRunner (store : Store) (ek : Nat) (rk : Nat)
    (p : RunnerFormInput) : Except PyFailure Store :=
  if runnerFormFieldsValid p = false then .error .invalid
  else if uniqueStartNoValidate store.runners ek (some rk) p.startNo
      = false then .error .invalid
  else
    match findRunner store.runners rk with
    | none => .error .exn
    | some _ => .error .exn

/-- Returns `true` iff an `Except` carries a success value. -/
def exceptOk {ε α : Type} : Except ε α → Bool
  | .ok _ => true
  | .error _ => false

/-- The four mutating operations C5 quantifies over: the event-update
POST handler and the runner create/update/delete POST handlers. -/
inductive CoreOp where
  | eventEdit (ek : Nat) (title : String) (year nsn : Int)
  | runnerCreate (ek : Nat) (p : RunnerFormInput) (newKey : Nat)
  | runnerEdit (ek : Nat) (rk : Nat) (p : RunnerFormInput)
  | runnerDrop (rk : Nat)
  deriving Repr

/-- One handler invocation against the store.  `EventUpdateHandler.post`
(main.py lines 448-463) populates the event from a validated
`EventForm`; an invalid form or an unresolvable key leaves the store
untouched.  `RunnerDeleteHandler.post` (lines 783-787) deletes by key.
The transactional create/update fall back to the unchanged store when
they raise. -/
def applyOp (store : Store) : CoreOp → Store
  | .eventEdit ek title year nsn =>
    match lookupEvent store.events ek with
    | none => store
    | some _ =>
      if eventFormValid title year nsn then
        let e : EventRec := { year := year, title := title, nextStartNo := nsn }
        { store with events := updateEventIn store.events ek e }
      else store
  | .runnerCreate ek p newKey =>
    match createRunner store ek p newKey with
    | .ok s => s
    | .error _ => store
  | .runnerEdit ek rk p =>
    match updateRunner store ek rk p with
    | .ok s => s
    | .error _ => store
  | .runnerDrop rk =>
    { store with runners := store.runners.filter (fun r => r.key ≠ rk) }

/-! ### ReportAggregator (`EventReportHandler._get_finished_list`) -/

/-- Datastore value order on the stored `time` strings: `None` is
stored as NULL, which is indexed and sorts before every string. -/
def timeLe : Option String → Option String → Bool
  | none, _ => true
  | some _, none => false
  | some a, some b => decide (a ≤ b)

/-- Insert behind all already-placed runners with a `timeLe`-smaller
or equal key (stable). -/
def insertByTime (r : RunnerRec) : List RunnerRec → List RunnerRec
  | [] => [r]
  | x :: xs =>
    if timeLe x.time r.time then x :: insertByTime r xs
    else r :: x :: xs

/-- Embedding of `qry.order(Runner.time)`: stable ascending sort on the stored
`time` value. -/
def sortByTime (rs : List RunnerRec) : List RunnerRec :=
  rs.foldl (fun acc r => insertByTime r acc) []

/-- The query of `_get_finished_list` (main.py lines 542-555).  The
filter argument is a Python `and` chain of ndb `FilterNode` objects;
`and` returns its last (truthy) operand, so with a race filter the
query filters only on `Runner.race == race`, and without one only on
`Runner.time != None`.  The `ancestor=event_key` argument restricts
both branches to the event's own runners, and `.order(Runner.time)`
sorts ascending with NULL first. -/
def finishedQuery (store : Store) (ek : Nat) (race : String) :
    List RunnerRec :=
  let filtered :=
    if race ≠ "" then
      store.runners.filter (fun r => r.parent == ek && r.race == race)
    else
      store.runners.filter (fun r => r.parent == ek && !(r.time == none))
  sortByTime filtered

/-- Embedding of `runners[race][gender][age_class].append(runner)` with
`setdefault` at the missing levels: innermost level of the dict built
by `_get_finished_list_gender_age_class` (main.py lines 566-575). -/
def appendLeaf (r : RunnerRec) :
    List (Option String × List RunnerRec) →
    List (Option String × List RunnerRec)
  | [] => [(r.ageClass, [r])]
  | (k, v) :: rest =>
    if k = r.ageClass then (k, v ++ [r]) :: rest
    else (k, v) :: appendLeaf r rest

/-- Middle (gender) level of the same dict. -/
def appendGender (r : RunnerRec) :
    List (String × List (Option String × List RunnerRec)) →
    List (String × List (Option String × List RunnerRec))
  | [] => [(r.gender, appendLeaf r [])]
  | (k, v) :: rest =>
    if k = r.gender then (k, appendLeaf r v) :: rest
    else (k, v) :: appendGender r rest

/-- Outer (race) level of the same dict. -/
def appendRace (r : RunnerRec) :
    List (String × List (String × List (Option String × List RunnerRec))) →
    List (String × List (String × List (Option String × List RunnerRec)))
  | [] => [(r.race, appendGender r [])]
  | (k, v) :: rest =>
    if k = r.race then (k, appendGender r v) :: rest
    else (k, v) :: appendRace r rest

/-- Embedding of `_get_finished_list_gender_age_class` (main.py lines 566-582):
group the time-ordered query results by race, then gender, then age
class, appending in iteration order. -/
def groupGenderAgeClass (rs : List RunnerRec) :
    List (String × List (String × List (Option String × List RunnerRec))) :=
  rs.foldl (fun acc r => appendRace r acc) []

/-! ### Concrete fixtures used by the claim theorems -/

/-- A 6km runner of event 0 who has not finished (`time` absent). -/
def c1NoTime : RunnerRec :=
  { key := 1, parent := 0, event := 0, startNo := 1, name := "Anna",
    team := "", gender := "male", birthYear := some 1990,
    ageClass := some "LM20", time := none, race := "6km" }

/-- A finished 6km runner of event 0. -/
def c1Finished : RunnerRec :=
  { key := 2, parent := 0, event := 0, startNo := 2, name := "Ben",
    team := "", gender := "male", birthYear := some 1986,
    ageClass := some "LM30", time := some "00:20:00", race := "6km" }

/-- Event 0 with the two runners above. -/
def c1Store : Store :=
  { events := [(0, { year := 2016, title := "Volkslauf", nextStartNo := 3 })],
    runners := [c1NoTime, c1Finished] }

/-- A valid `RunnerForm` input whose start number 3 equals
`c1Store`'s event counter. -/
def c4Params : RunnerFormInput :=
  { startNo := 3, name := "Cara", team := "", gender := "female",
    birthYear := 1984, race := "12km" }

/-- Event 0 with `next_start_no = 5`, used by the C5 counterexample. -/
def c5Before : EventRec :=
  { year := 2016, title := "Volkslauf", nextStartNo := 5 }

/-- Store holding only event 0. -/
def c5Store : Store := { events := [(0, c5Before)], runners := [] }

/-! ### Claim theorems -/

/-- Claim C1: the finished-list report was claimed to return only
runners with a time.  In the race-filtered branch the query filter is
the Python expression `Runner.event == event_key and Runner.time !=
None and Runner.race == race`, which evaluates to its last operand, so
the `time != None` condition is dropped: the runner `c1NoTime`, who
has no time, is returned first (NULL sorts before every string) and
appears in the grouped report. -/
theorem c1_unfinished_runner_in_finished_report :
    finishedQuery c1Store 0 "6km" = [c1NoTime, c1Finished]
    ∧ c1NoTime.time = none
    ∧ groupGenderAgeClass (finishedQuery c1Store 0 "6km") =
        [("6km", [("male", [(some "LM20", [c1NoTime]),
                            (some "LM30", [c1Finished])])])] :=
  ⟨rfl, rfl, rfl⟩

/-- Claim C2: the round-trip law `parse (format s) = s` fails already
at `s = 1`: `_display_seconds` renders `"00:00:01"`, and
`_get_seconds_from_time` computes `arr[0]*3600 + arr[1]*60 + arr[0]`
— the hours component where the seconds component belongs — giving
`0`. -/
theorem c2_parse_format_roundtrip_fails :
    displaySeconds (some 1) = some "00:00:01"
    ∧ getSecondsFromTime "00:00:01" = Except.ok (some 0) :=
  ⟨rfl, rfl⟩

/-- Claim C6: the three concrete classifications from the spec:
age 16 gives `MJG B`, age 56 gives `LW55`, age 6 gives `MS D`. -/
theorem c6_age_class_examples :
    computeAgeClass "male" (some 2000) 2016 = some "MJG B"
    ∧ computeAgeClass "female" (some 1960) 2016 = some "LW55"
    ∧ computeAgeClass "male" (some 2010) 2016 = some "MS D" :=
  ⟨rfl, rfl, rfl⟩

/-- Claim C5, counterexample: the event-update handler accepts any
`next_start_no ≥ 1`, so updating event 0 (counter 5) with counter 1
decreases `next_start_no` from 5 to 1. -/
theorem c5_event_edit_decreases_counter :
    lookupEvent c5Store.events 0 = some c5Before
    ∧ c5Before.nextStartNo = 5
    ∧ lookupEvent (applyOp c5Store
        (CoreOp.eventEdit 0 "Volkslauf" 2016 1)).events 0 =
        some { year := 2016, title := "Volkslauf", nextStartNo := 1 }
    ∧ (1 : Int) < 5 :=
  ⟨rfl, rfl, rfl, by decide⟩

/-- Claim C7, counterexample: when classification is impossible the
pre-put hook keeps the previously stored label instead of unsetting
it: with gender `"x"` the classifier returns `none`, yet a stored
`"LM20"` survives the write. -/
theorem c7_stale_age_class_kept :
    computeAgeClass "x" (some 1990) 2016 = none
    ∧ prePutAgeClass (some "LM20")
        (computeAgeClass "x" (some 1990) 2016) = some "LM20" :=
  ⟨rfl, rfl⟩

/-- Claim C9, counterexample: a value under one hour is rendered as
`00:mm:ss` (a three-component string with a literal `00` hours block),
not as the claimed `mm:ss`: 61 seconds formats to `"00:01:01"`. -/
theorem c9_under_one_hour_has_hours_block :
    displaySeconds (some 61) = some "00:01:01"
    ∧ ("00:01:01" : String) ≠ "01:01" :=
  ⟨rfl, by decide⟩

/-- Claim C8: `_update_runner` never persists anything.  The line
`if not self.request.params('time')` calls `request.params`, a webob
MultiDict, which is not callable; every request that survives form
validation dies with `TypeError` before `runner.put()` (and an
unresolvable runner key dies with `AttributeError`), so the update —
including the claimed time-clearing — never reaches the datastore. -/
theorem c8_runner_edit_never_persists (store : Store) (ek rk : Nat)
    (p : RunnerFormInput) :
    exceptOk (updateRunner store ek rk p) = false := by
  unfold updateRunner
  split
  · rfl
  · split
    · rfl
    · split <;> rfl

/-- Claim C9 (amended): `None` formats to `None`; a value under one
hour renders as `00:mm:ss` — a three-component string with a literal
`00` hours block, not the claimed `mm:ss` — and a value of an hour or
more renders as `hh:mm:ss` with `hh = s // 3600` not wrapped to 24;
all components zero-padded to two digits. -/
theorem c9_display_format (s : Int) (h : 0 ≤ s) :
    displaySeconds none = none
    ∧ (s < 3600 →
        displaySeconds (some s) =
          some ("00:" ++ pad2 (s.fdiv 60) ++ ":" ++ pad2 (s.emod 60)))
    ∧ (3600 ≤ s →
        displaySeconds (some s) =
          some (pad2 (s.fdiv 3600) ++ ":" ++ pad2 ((s.fdiv 60).emod 60)
                ++ ":" ++ pad2 (s.emod 60))) := by
  refine ⟨rfl, ?_, ?_⟩
  · intro hlt
    have h60 : s.fdiv 60 = s / 60 := Int.fdiv_eq_ediv _ (by omega)
    have hm : (s.fdiv 60).emod 60 = s.fdiv 60 := by
      rw [h60]; show (s / 60) % 60 = s / 60; omega
    have hh : (s.fdiv 60).fdiv 60 = 0 := by
      rw [h60, Int.fdiv_eq_ediv _ (by omega)]; omega
    simp only [displaySeconds]
    rw [hh, if_pos rfl, hm]
  · intro hge
    have h60 : s.fdiv 60 = s / 60 := Int.fdiv_eq_ediv _ (by omega)
    have hh : (s.fdiv 60).fdiv 60 = s.fdiv 3600 := by
      rw [h60, Int.fdiv_eq_ediv _ (by omega),
        Int.fdiv_eq_ediv _ (by omega)]
      omega
    have hne : ¬(s.fdiv 3600 = 0) := by
      rw [Int.fdiv_eq_ediv _ (by omega)]; omega
    simp only [displaySeconds]
    rw [hh, if_neg hne]

/-- Witness for `c9_display_format` at 59 and 3661 seconds. -/
theorem c9_display_format_witness :
    displaySeconds (some 59) =
      some ("00:" ++ pad2 ((59 : Int).fdiv 60) ++ ":"
            ++ pad2 ((59 : Int).emod 60))
    ∧ displaySeconds (some 3661) =
      some (pad2 ((3661 : Int).fdiv 3600) ++ ":"
            ++ pad2 (((3661 : Int).fdiv 60).emod 60) ++ ":"
            ++ pad2 ((3661 : Int).emod 60)) :=
  ⟨(c9_display_format 59 (by decide)).2.1 (by decide),
   (c9_display_format 3661 (by decide)).2.2 (by decide)⟩

/-- A string whose first factor is nonempty is nonempty. -/
theorem append_ne_empty (x y : String) (hx : x.length ≠ 0) :
    x ++ y ≠ "" := by
  intro h
  have hl := congrArg String.length h
  rw [String.length_append] at hl
  simp only [String.length] at hl
  simp at hl
  omega

/-- The classifier never produces the empty label: every branch
prepends a nonempty prefix. -/
theorem computeAgeClass_ne_empty (g : String) (b : Option Int) (y : Int)
    (s : String) (h : computeAgeClass g b y = some s) : s ≠ "" := by
  unfold computeAgeClass at h
  split at h
  · exact absurd h (by simp)
  · split at h
    · exact absurd h (by simp)
    · dsimp only at h
      split at h
      · injection h with h'
        subst h'
        intro hc
        have hl := congrArg String.length hc
        rw [String.length_append, String.length_append] at hl
        have e1 : ("S " : String).length = 2 := rfl
        have e2 : ("" : String).length = 0 := rfl
        rw [e1, e2] at hl
        omega
      · split at h
        · injection h with h'
          subst h'
          intro hc
          have hl := congrArg String.length hc
          rw [String.length_append, String.length_append] at hl
          have e1 : ("JG " : String).length = 3 := rfl
          have e2 : ("" : String).length = 0 := rfl
          rw [e1, e2] at hl
          omega
        · injection h with h'
          subst h'
          intro hc
          have hl := congrArg String.length hc
          rw [String.length_append, String.length_append] at hl
          have e1 : ("L" : String).length = 1 := rfl
          have e2 : ("" : String).length = 0 := rfl
          rw [e1, e2] at hl
          omega

/-- Claim C7 (amended): after the pre-put hook runs, the stored age
class equals the freshly computed classification whenever gender and
birth year permit one; when classification is impossible the hook
leaves the previously stored value unchanged — a stale label is
retained, and the field is unset only if it was never set. -/
theorem c7_age_class_after_write (old : Option String) (g : String)
    (b : Option Int) (y : Int) :
    (∀ s, computeAgeClass g b y = some s →
      prePutAgeClass old (computeAgeClass g b y) = some s)
    ∧ (computeAgeClass g b y = none →
      prePutAgeClass old (computeAgeClass g b y) = old) := by
  constructor
  · intro s hs
    rw [hs]
    simp only [prePutAgeClass]
    rw [if_neg (computeAgeClass_ne_empty g b y s hs)]
  · intro hn
    rw [hn]
    rfl

/-- Witness for `c7_age_class_after_write`: a classifiable write
stores the computed label, an unclassifiable one keeps the old. -/
theorem c7_age_class_after_write_witness :
    prePutAgeClass none (computeAgeClass "male" (some 2000) 2016) =
      some "MJG B"
    ∧ prePutAgeClass (some "LW55") (computeAgeClass "y" (some 1990) 2016) =
      some "LW55" :=
  ⟨(c7_age_class_after_write none "male" (some 2000) 2016).1 "MJG B" rfl,
   (c7_age_class_after_write (some "LW55") "y" (some 1990) 2016).2 rfl⟩

/-- Appending characters on the right does not disturb a digit scan
that stopped at a non-digit character. -/
theorem takeDigits_append (xs ys : List Char) :
    ∀ d r, takeDigits xs = (d, r) → r ≠ [] →
      takeDigits (xs ++ ys) = (d, r ++ ys) := by
  induction xs with
  | nil =>
    intro d r h hr
    injection h with h1 h2
    subst h2
    exact absurd rfl hr
  | cons c rest ih =>
    intro d r h hr
    by_cases hc : c.isDigit
    · rcases he : takeDigits rest with ⟨d', r'⟩
      simp only [takeDigits, hc, if_true, he] at h
      injection h with h1 h2
      subst h1
      subst h2
      simp [List.cons_append, takeDigits, hc, ih d' r' he hr]
    · simp only [takeDigits, hc, if_false] at h
      injection h with h1 h2
      subst h1
      subst h2
      simp [List.cons_append, takeDigits, hc]

/-- A digit scan yields a nonempty digit block only when the first
character is a digit. -/
theorem takeDigits_fst_ne_nil (cs : List Char)
    (h : (takeDigits cs).1 ≠ []) :
    ∃ c t, cs = c :: t ∧ c.isDigit = true := by
  cases cs with
  | nil => exact absurd rfl h
  | cons c t =>
    by_cases hc : c.isDigit
    · exact ⟨c, t, rfl, hc⟩
    · exfalso
      apply h
      simp [takeDigits, hc]

/-- Claim C10: the time pattern `^(\d+:)?\d+:\d+` is anchored only at
the start, so (i) any string extending an accepted string is still
accepted, (ii) `'1:2:3:4'` passes validation and converts to `1`
(`split(':', 3)` yields four parts and the fall-through branch returns
`arr[0]`), and (iii) `'12:34x'` passes validation but conversion dies
in `int('34x')`. -/
theorem c10_time_pattern_prefix_only :
    (∀ s t : String, durationValid s = true → durationValid (s ++ t) = true)
    ∧ durationValid "1:2:3:4" = true
    ∧ getSecondsFromTime "1:2:3:4" = Except.ok (some 1)
    ∧ durationValid "12:34x" = true
    ∧ getSecondsFromTime "12:34x" = Except.error () := by
  refine ⟨?_, rfl, rfl, rfl, rfl⟩
  intro s t h
  unfold durationValid regexTimeMatch at h ⊢
  rw [String.data_append]
  rcases hd : takeDigits s.data with ⟨d, r⟩
  rw [hd] at h
  cases d with
  | nil => simp at h
  | cons c0 d' =>
    cases r with
    | nil => simp at h
    | cons rc rtail =>
      simp only [Bool.and_eq_true, decide_eq_true_eq,
        Bool.not_eq_true'] at h
      obtain ⟨hrc, hne⟩ := h
      subst hrc
      have hne' : (takeDigits rtail).1 ≠ [] := by
        intro hnil
        rw [hnil] at hne
        simp at hne
      have hres := takeDigits_append s.data t.data (c0 :: d')
        (':' :: rtail) hd (by simp)
      rw [hres]
      obtain ⟨c2, t2, ht2, hdig⟩ := takeDigits_fst_ne_nil rtail hne'
      subst ht2
      simp [takeDigits, hdig]

/-- Witness for `c10_time_pattern_prefix_only`: extending the accepted
string `"1:2"` keeps it accepted. -/
theorem c10_time_pattern_prefix_only_witness :
    durationValid ("1:2" ++ ":3:4x") = true :=
  c10_time_pattern_prefix_only.1 "1:2" ":3:4x" rfl

/-- Looking up the updated key after `updateEventIn` returns the new
entity, provided the key exists. -/
theorem lookupEvent_updateEventIn_self (events : List (Nat × EventRec))
    (k : Nat) (e e0 : EventRec) (h : lookupEvent events k = some e0) :
    lookupEvent (updateEventIn events k e) k = some e := by
  induction events with
  | nil => exact absurd h (by simp [lookupEvent])
  | cons p rest ih =>
    obtain ⟨k0, e0'⟩ := p
    by_cases hk : k0 = k
    · subst hk
      have h1 : updateEventIn ((k0, e0') :: rest) k0 e =
          (k0, e) :: updateEventIn rest k0 e := by
        simp [updateEventIn]
      rw [h1]
      simp [lookupEvent]
    · simp only [lookupEvent, if_neg hk] at h
      have h1 : updateEventIn ((k0, e0') :: rest) k e =
          (k0, e0') :: updateEventIn rest k e := by
        simp [updateEventIn, hk]
      rw [h1]
      simp only [lookupEvent, if_neg hk]
      exact ih h

/-- Looking up a different key after `updateEventIn` is unchanged. -/
theorem lookupEvent_updateEventIn_ne (events : List (Nat × EventRec))
    (k k' : Nat) (e : EventRec) (h : k' ≠ k) :
    lookupEvent (updateEventIn events k e) k' = lookupEvent events k' := by
  induction events with
  | nil => rfl
  | cons p rest ih =>
    obtain ⟨k0, e0⟩ := p
    by_cases hk : k0 = k
    · subst hk
      have hne : ¬(k0 = k') := fun hc => h (hc.symm)
      have h1 : updateEventIn ((k0, e0) :: rest) k0 e =
          (k0, e) :: updateEventIn rest k0 e := by
        simp [updateEventIn]
      rw [h1]
      simp only [lookupEvent, if_neg hne]
      exact ih
    · have h1 : updateEventIn ((k0, e0) :: rest) k e =
          (k0, e0) :: updateEventIn rest k e := by
        simp [updateEventIn, hk]
      rw [h1]
      simp only [lookupEvent]
      by_cases hk' : k0 = k'
      · simp only [if_pos hk']
      · simp only [if_neg hk']
        exact ih

/-- Successful `_create_runner` touches the event table only through
`updateEventIn` at the creating event's key, and never lowers the
counter. -/
theorem createRunner_ok_events (store : Store) (ek : Nat)
    (p : RunnerFormInput) (newKey : Nat) (s : Store)
    (h : createRunner store ek p newKey = .ok s) :
    ∃ ev ev', lookupEvent store.events ek = some ev ∧
      s.events = updateEventIn store.events ek ev' ∧
      ev.nextStartNo ≤ ev'.nextStartNo := by
  unfold createRunner at h
  split at h
  · exact absurd h (by simp)
  · split at h
    · exact absurd h (by simp)
    · rcases hev : lookupEvent store.events ek with _ | ev
      · rw [hev] at h
        exact absurd h (by simp)
      · rw [hev] at h
        dsimp only at h
        by_cases hsn : ev.nextStartNo = p.startNo
        · rw [if_pos hsn] at h
          injection h with h'
          subst h'
          exact ⟨ev, { ev with nextStartNo := ev.nextStartNo + 1 },
            rfl, rfl, by dsimp; omega⟩
        · rw [if_neg hsn] at h
          injection h with h'
          subst h'
          exact ⟨ev, ev, rfl, rfl, le_refl _⟩

/-- Lemma: `_update_runner` can never return a new store: the
`self.request.params('time')` call raises before `runner.put()`. -/
theorem updateRunner_no_ok (store : Store) (ek rk : Nat)
    (p : RunnerFormInput) (s : Store) :
    updateRunner store ek rk p ≠ .ok s := by
  unfold updateRunner
  split
  · simp
  · split
    · simp
    · split <;> simp

/-- Claim C3: the duplicate-start-number check.  For Create the
validator fails exactly when some runner of the same event already
holds the start number, and a failed check aborts `_create_runner`
with no runner written; for Update the check excludes the updated
runner's own key, so keeping one's own start number passes while a
number held only by siblings fails. -/
theorem c3_unique_start_no_validation (runners : List RunnerRec)
    (ek : Nat) (v : Int) (store : Store) (p : RunnerFormInput)
    (newKey : Nat) :
    (uniqueStartNoValidate runners ek none v = false ↔
      ∃ r ∈ runners, r.parent = ek ∧ r.startNo = v)
    ∧ (uniqueStartNoValidate store.runners ek none p.startNo = false →
      createRunner store ek p newKey = .error ())
    ∧ (∀ rk, (∀ r' ∈ runners, r'.parent = ek → r'.startNo = v →
        r'.key = rk) →
      uniqueStartNoValidate runners ek (some rk) v = true)
    ∧ (∀ rk, (∃ r ∈ runners, r.parent = ek ∧ r.startNo = v) →
      (∀ r' ∈ runners, r'.parent = ek → r'.startNo = v → r'.key ≠ rk) →
      uniqueStartNoValidate runners ek (some rk) v = false) := by
  have hq : ∀ r, uniqueStartNoQuery runners ek v = some r →
      r ∈ runners ∧ r.parent = ek ∧ r.startNo = v := by
    intro r hf
    have hp := List.find?_some hf
    simp only [Bool.and_eq_true, decide_eq_true_eq] at hp
    exact ⟨List.mem_of_find?_eq_some hf, hp.1, hp.2⟩
  refine ⟨?_, ?_, ?_, ?_⟩
  · constructor
    · intro h
      unfold uniqueStartNoValidate at h
      cases hf : uniqueStartNoQuery runners ek v with
      | none => rw [hf] at h; simp at h
      | some r =>
        obtain ⟨hm, hp1, hp2⟩ := hq r hf
        exact ⟨r, hm, hp1, hp2⟩
    · rintro ⟨r, hm, hp1, hp2⟩
      unfold uniqueStartNoValidate
      cases hf : uniqueStartNoQuery runners ek v with
      | none =>
        exfalso
        unfold uniqueStartNoQuery at hf
        rw [List.find?_eq_none] at hf
        exact hf r hm (by simp [hp1, hp2])
      | some r' => simp
  · intro h
    by_cases hf : runnerFormFieldsValid p = false
    · unfold createRunner
      rw [if_pos hf]
    · unfold createRunner
      rw [if_neg hf, if_pos h]
  · intro rk hall
    unfold uniqueStartNoValidate
    cases hf : uniqueStartNoQuery runners ek v with
    | none => rfl
    | some r =>
      obtain ⟨hm, hp1, hp2⟩ := hq r hf
      simp [hall r hm hp1 hp2]
  · intro rk hex hall
    unfold uniqueStartNoValidate
    cases hf : uniqueStartNoQuery runners ek v with
    | none =>
      exfalso
      obtain ⟨r, hm, hp1, hp2⟩ := hex
      unfold uniqueStartNoQuery at hf
      rw [List.find?_eq_none] at hf
      exact hf r hm (by simp [hp1, hp2])
    | some r =>
      obtain ⟨hm, hp1, hp2⟩ := hq r hf
      simp [hall r hm hp1 hp2]

/-- Witness for `c3_unique_start_no_validation`: in `c1Store`'s runner
table, start number 1 passes for the runner that holds it (key 1) and
fails for a different runner (key 99). -/
theorem c3_unique_start_no_validation_witness :
    uniqueStartNoValidate [c1NoTime, c1Finished] 0 (some 1) 1 = true
    ∧ uniqueStartNoValidate [c1NoTime, c1Finished] 0 (some 99) 1 = false :=
  ⟨(c3_unique_start_no_validation [c1NoTime, c1Finished] 0 1 c1Store
      c4Params 9).2.2.1 1 (by decide),
   (c3_unique_start_no_validation [c1NoTime, c1Finished] 0 1 c1Store
      c4Params 9).2.2.2 99 (by decide) (by decide)⟩

/-- Claim C4: creating a runner whose start number equals the event's
`next_start_no` succeeds and advances the counter by exactly one; a
different start number leaves the counter unchanged; a create whose
duplicate check fails aborts without touching anything. -/
theorem c4_counter_advance (store : Store) (ek : Nat)
    (p : RunnerFormInput) (newKey : Nat) (ev : EventRec)
    (hev : lookupEvent store.events ek = some ev)
    (hfields : runnerFormFieldsValid p = true)
    (huniq : uniqueStartNoValidate store.runners ek none p.startNo
      = true) :
    (p.startNo = ev.nextStartNo →
      ∃ s, createRunner store ek p newKey = .ok s ∧
        lookupEvent s.events ek =
          some { ev with nextStartNo := ev.nextStartNo + 1 })
    ∧ (p.startNo ≠ ev.nextStartNo →
      ∃ s, createRunner store ek p newKey = .ok s ∧
        lookupEvent s.events ek = some ev)
    ∧ (∀ q : RunnerFormInput,
      uniqueStartNoValidate store.runners ek none q.startNo = false →
      createRunner store ek q newKey = .error ()) := by
  have hfields' : ¬(runnerFormFieldsValid p = false) := by
    rw [hfields]; simp
  have huniq' :
      ¬(uniqueStartNoValidate store.runners ek none p.startNo = false) := by
    rw [huniq]; simp
  refine ⟨?_, ?_, ?_⟩
  · intro heq
    have hcr : createRunner store ek p newKey = Except.ok
        { events := updateEventIn store.events ek
            { ev with nextStartNo := ev.nextStartNo + 1 },
          runners := store.runners ++
            [{ key := newKey, parent := ek, event := ek,
               startNo := p.startNo, name := p.name, team := p.team,
               gender := p.gender, birthYear := some p.birthYear,
               ageClass := prePutAgeClass none
                 (computeAgeClass p.gender (some p.birthYear) ev.year),
               time := none, race := p.race }] } := by
      unfold createRunner
      rw [if_neg hfields', if_neg huniq', hev]
      dsimp only
      rw [if_pos heq.symm]
    exact ⟨_, hcr,
      lookupEvent_updateEventIn_self store.events ek _ ev hev⟩
  · intro hne
    have hcr : createRunner store ek p newKey = Except.ok
        { events := updateEventIn store.events ek ev,
          runners := store.runners ++
            [{ key := newKey, parent := ek, event := ek,
               startNo := p.startNo, name := p.name, team := p.team,
               gender := p.gender, birthYear := some p.birthYear,
               ageClass := prePutAgeClass none
                 (computeAgeClass p.gender (some p.birthYear) ev.year),
               time := none, race := p.race }] } := by
      unfold createRunner
      rw [if_neg hfields', if_neg huniq', hev]
      dsimp only
      rw [if_neg (fun hc => hne hc.symm)]
    exact ⟨_, hcr,
      lookupEvent_updateEventIn_self store.events ek _ ev hev⟩
  · intro q hqdup
    by_cases hf : runnerFormFieldsValid q = false
    · unfold createRunner
      rw [if_pos hf]
    · unfold createRunner
      rw [if_neg hf, if_pos hqdup]

/-- Witness for `c4_counter_advance`: creating `c4Params` (start
number 3) in `c1Store` (counter 3) advances the counter to 4. -/
theorem c4_counter_advance_witness :
    ∃ s, createRunner c1Store 0 c4Params 9 = .ok s ∧
      lookupEvent s.events 0 =
        some { year := 2016, title := "Volkslauf", nextStartNo := 4 } :=
  (c4_counter_advance c1Store 0 c4Params 9
    { year := 2016, title := "Volkslauf", nextStartNo := 3 }
    rfl (by decide) (by decide)).1 rfl

/-- Claim C5 (amended): under the runner operations — create, update,
delete — an event's `next_start_no` never decreases; the event-update
handler is excluded, since it writes any validated value (≥ 1) the
caller submits, including smaller ones (see the counterexample). -/
theorem c5_runner_ops_monotone (store : Store) (op : CoreOp)
    (hop : ∀ ek title year nsn, op ≠ CoreOp.eventEdit ek title year nsn) :
    ∀ k e e', lookupEvent store.events k = some e →
      lookupEvent (applyOp store op).events k = some e' →
      e.nextStartNo ≤ e'.nextStartNo := by
  intro k e e' hb ha
  cases op with
  | eventEdit ek t y n => exact absurd rfl (hop ek t y n)
  | runnerCreate ek p nk =>
    unfold applyOp at ha
    dsimp only at ha
    cases hc : createRunner store ek p nk with
    | error f =>
      rw [hc] at ha
      dsimp only at ha
      rw [hb] at ha
      injection ha with ha'
      exact le_of_eq (by rw [ha'])
    | ok s =>
      rw [hc] at ha
      dsimp only at ha
      obtain ⟨ev, ev', hev, hse, hle⟩ :=
        createRunner_ok_events store ek p nk s hc
      rw [hse] at ha
      by_cases hk : k = ek
      · subst hk
        have hee : ev = e := by
          have := hev.symm.trans hb
          injection this
        rw [lookupEvent_updateEventIn_self store.events k ev' ev hev] at ha
        injection ha with ha'
        rw [← hee, ← ha']
        exact hle
      · rw [lookupEvent_updateEventIn_ne store.events ek k ev' hk] at ha
        rw [hb] at ha
        injection ha with ha'
        exact le_of_eq (by rw [ha'])
  | runnerEdit ek rk p =>
    unfold applyOp at ha
    dsimp only at ha
    cases hc : updateRunner store ek rk p with
    | ok s => exact absurd hc (updateRunner_no_ok store ek rk p s)
    | error f =>
      rw [hc] at ha
      dsimp only at ha
      rw [hb] at ha
      injection ha with ha'
      exact le_of_eq (by rw [ha'])
  | runnerDrop rk =>
    unfold applyOp at ha
    dsimp only at ha
    rw [hb] at ha
    injection ha with ha'
    exact le_of_eq (by rw [ha'])

/-- Witness for `c5_runner_ops_monotone`: the creation of `c4Params`
in `c1Store` takes event 0's counter from 3 to 4, and 3 ≤ 4. -/
theorem c5_runner_ops_monotone_witness : (3 : Int) ≤ 4 :=
  c5_runner_ops_monotone c1Store (CoreOp.runnerCreate 0 c4Params 9)
    (fun _ _ _ _ h => nomatch h) 0
    { year := 2016, title := "Volkslauf", nextStartNo := 3 }
    { year := 2016, title := "Volkslauf", nextStartNo := 4 }
    rfl (by decide)

end Volkslauf
